import Mathlib

/-!
Shallow embedding of `googletrans/client.py` (the `Translator` class): the
request encoder `_build_rpc_request`, the response-extraction loop and the
positional result parsing inside `Translator.translate`, and
`Translator.detect`.  Python's `json.dumps` / `json.loads` (the stdlib
behaviour actually exercised by the client) are modelled executably over a
JSON value type.  The HTTP transport is a collaborator: the embedded
`translate` receives the raw response body as an argument.
-/

/-- JSON values as produced by Python's `json.loads`.  Non-integer numbers
are kept as their source lexeme (`fnum`), since the client never computes
with them; `NaN`/`Infinity`/`-Infinity` (accepted by Python) are also `fnum`
lexemes. -/
inductive JValue where
  | null
  | bool (b : Bool)
  | num (n : Int)
  | fnum (lit : String)
  | str (s : String)
  | arr (elems : List JValue)
  | obj (members : List (String × JValue))

/-- Lowercase-hex digit character for `0 ≤ n < 16` (as `"%x"` formatting). -/
def hexDigitChar (n : Nat) : Char :=
  if n < 10 then Char.ofNat (48 + n) else Char.ofNat (87 + n)

/-- Four lowercase hex digits of `n < 0x10000` (as `"\u%04x"` formatting). -/
def hex4 (n : Nat) : List Char :=
  [hexDigitChar (n / 4096 % 16), hexDigitChar (n / 256 % 16),
   hexDigitChar (n / 16 % 16), hexDigitChar (n % 16)]

/-- Python `json.dumps` escaping of one character with `ensure_ascii=True`
(the default used by the client): the short escapes from `ESCAPE_DCT`, then
`\uXXXX` for other control characters and for every character outside
printable ASCII, with surrogate pairs above `0xFFFF`. -/
def escapeChar (c : Char) : List Char :=
  if c = '\\' then ['\\', '\\']
  else if c = '"' then ['\\', '"']
  else if c = Char.ofNat 8 then ['\\', 'b']
  else if c = Char.ofNat 12 then ['\\', 'f']
  else if c = '\n' then ['\\', 'n']
  else if c = Char.ofNat 13 then ['\\', 'r']
  else if c = '\t' then ['\\', 't']
  else if c.toNat < 0x20 then '\\' :: 'u' :: hex4 c.toNat
  else if c.toNat < 0x7f then [c]
  else if c.toNat < 0x10000 then '\\' :: 'u' :: hex4 c.toNat
  else
    let n := c.toNat - 0x10000
    ('\\' :: 'u' :: hex4 (0xD800 + n / 0x400)) ++ ('\\' :: 'u' :: hex4 (0xDC00 + n % 0x400))

/-- Escape every character of a string (body of a JSON string literal). -/
def escapeList (cs : List Char) : List Char :=
  cs.foldr (fun c acc => escapeChar c ++ acc) []

/-- A JSON string literal for `s`, as `json.dumps` emits it. -/
def dumpStr (s : String) : String :=
  String.mk ('"' :: (escapeList s.data ++ ['"']))

/-- Decimal digits of a natural number (fuelled; `fuel ≥ n` suffices). -/
def natRepr : Nat → Nat → List Char
  | 0, _ => []
  | _ + 1, n => if n < 10 then [hexDigitChar n] else natRepr n (n / 10) ++ [hexDigitChar (n % 10)]

/-- Decimal representation of an integer, as Python prints it. -/
def intRepr (n : Int) : String :=
  if n < 0 then String.mk ('-' :: natRepr (n.natAbs + 1) n.natAbs)
  else String.mk (natRepr (n.toNat + 1) n.toNat)

mutual
/-- Python `json.dumps(v, separators=(",", ":"))`: compact serialization,
exactly as the client calls it in `_build_rpc_request`. -/
def pyDumps : JValue → String
  | .null => "null"
  | .bool true => "true"
  | .bool false => "false"
  | .num n => intRepr n
  | .fnum s => s
  | .str s => dumpStr s
  | .arr [] => "[]"
  | .arr (x :: xs) => "[" ++ pyDumps x ++ pyDumpsRest xs ++ "]"
  | .obj [] => "\x7b\x7d"
  | .obj ((k, v) :: ms) => "\x7b" ++ dumpStr k ++ ":" ++ pyDumps v ++ pyDumpsObjRest ms ++ "\x7d"

/-- Remaining array items, each preceded by the `","` item separator. -/
def pyDumpsRest : List JValue → String
  | [] => ""
  | x :: xs => "," ++ pyDumps x ++ pyDumpsRest xs

/-- Remaining object members, each preceded by the `","` item separator. -/
def pyDumpsObjRest : List (String × JValue) → String
  | [] => ""
  | (k, v) :: ms => "," ++ dumpStr k ++ ":" ++ pyDumps v ++ pyDumpsObjRest ms
end

/-- Value of a hex digit character, `\uXXXX` digits (Python accepts both
cases). -/
def hexVal (c : Char) : Option Nat :=
  if '0' ≤ c ∧ c ≤ '9' then some (c.toNat - 48)
  else if 'a' ≤ c ∧ c ≤ 'f' then some (c.toNat - 87)
  else if 'A' ≤ c ∧ c ≤ 'F' then some (c.toNat - 55)
  else none

/-- Value of four hex digits. -/
def hex4Val (a b c d : Char) : Option Nat := do
  pure ((← hexVal a) * 4096 + (← hexVal b) * 256 + (← hexVal c) * 16 + (← hexVal d))

/-- The short escapes of the JSON string grammar. -/
def shortEsc (e : Char) : Option Char :=
  if e = '"' then some '"'
  else if e = '\\' then some '\\'
  else if e = '/' then some '/'
  else if e = 'b' then some (Char.ofNat 8)
  else if e = 'f' then some (Char.ofNat 12)
  else if e = 'n' then some '\n'
  else if e = 'r' then some (Char.ofNat 13)
  else if e = 't' then some '\t'
  else none

/-- One escape sequence after the backslash: the decoded character and the
remaining input.  `\uXXXX` escapes recombine surrogate pairs, as Python's
scanner does.  (Python additionally tolerates lone surrogates, which
Lean's `Char` cannot represent; inputs containing them are treated as
undecodable here.) -/
def escUnit : List Char → Option (Char × List Char)
  | [] => none
  | e :: rest =>
    if e = 'u' then
      match rest with
      | a :: b :: d1 :: d2 :: rest2 =>
        (match hex4Val a b d1 d2 with
         | none => none
         | some n =>
           if 0xD800 ≤ n ∧ n < 0xDC00 then
             match rest2 with
             | '\\' :: 'u' :: a2 :: b2 :: c2 :: e2 :: rest3 =>
               (match hex4Val a2 b2 c2 e2 with
                | none => none
                | some m =>
                  if 0xDC00 ≤ m ∧ m < 0xE000 then
                    some (Char.ofNat (0x10000 + (n - 0xD800) * 0x400 + (m - 0xDC00)), rest3)
                  else none)
             | _ => none
           else if 0xDC00 ≤ n ∧ n < 0xE000 then none
           else some (Char.ofNat n, rest2))
      | _ => none
    else (shortEsc e).map fun ch => (ch, rest)

/-- Python `json.loads` string scanning, after the opening quote: returns
the decoded content and the input after the closing quote.  Strict mode
(the default): raw control characters are rejected.  Fuelled: each decoded
character costs one unit, so fuel beyond the input length never runs
out. -/
def parseJStringBody : Nat → List Char → Option (List Char × List Char)
  | 0, _ => none
  | _ + 1, [] => none
  | fuel + 1, c :: rest =>
    if c = '"' then some ([], rest)
    else if c = '\\' then
      match escUnit rest with
      | none => none
      | some (ch, rest2) => (parseJStringBody fuel rest2).map fun p => (ch :: p.1, p.2)
    else if c.toNat < 0x20 then none
    else (parseJStringBody fuel rest).map fun p => (c :: p.1, p.2)

/-- JSON whitespace skipping (`' '`, `'\t'`, `'\n'`, `'\r'`). -/
def skipWs : List Char → List Char :=
  List.dropWhile fun c => c == ' ' || c == '\t' || c == '\n' || c == '\r'

/-- Longest leading run of decimal digits, and the rest. -/
def takeDigits : List Char → List Char × List Char
  | [] => ([], [])
  | c :: rest =>
    if c.isDigit then
      let (d, r) := takeDigits rest
      (c :: d, r)
    else ([], c :: rest)

/-- Read the digits of a decimal numeral (most significant first). -/
def digitsToNat : List Char → Nat → Nat
  | [], acc => acc
  | c :: r, acc => digitsToNat r (acc * 10 + (c.toNat - 48))

/-- Optional fraction part `.\d+` of a JSON number, with the rest. -/
def numFracPart : List Char → List Char × List Char
  | '.' :: c :: rest =>
    if c.isDigit then
      let (d, rr) := takeDigits rest
      ('.' :: c :: d, rr)
    else ([], '.' :: c :: rest)
  | r => ([], r)

/-- Optional exponent part `[eE][-+]?\d+` of a JSON number, with the rest. -/
def numExpPart (r : List Char) : List Char × List Char :=
  match r with
  | e :: rest =>
    if e = 'e' ∨ e = 'E' then
      let (sgn, rest2) : List Char × List Char :=
        match rest with
        | '+' :: rr => (['+'], rr)
        | '-' :: rr => (['-'], rr)
        | _ => ([], rest)
      match rest2 with
      | c :: rest3 =>
        if c.isDigit then
          let (d, rr) := takeDigits rest3
          (e :: (sgn ++ c :: d), rr)
        else ([], r)
      | [] => ([], r)
    else ([], r)
  | [] => ([], r)

/-- Finish scanning a JSON number whose integer digits are known: an
integral literal yields `num`, one with fraction or exponent yields the
float lexeme `fnum` (matching Python's `int` vs `float` result). -/
def finishNum (neg : Bool) (intDigits : List Char) (r : List Char) : JValue × List Char :=
  let (fracDigits, r1) := numFracPart r
  let (expDigits, r2) := numExpPart r1
  if fracDigits.isEmpty && expDigits.isEmpty then
    let v : Int := Int.ofNat (digitsToNat intDigits 0)
    ((if neg then JValue.num (-v) else JValue.num v), r2)
  else
    (JValue.fnum (String.mk ((if neg then ['-'] else []) ++ intDigits ++ fracDigits ++ expDigits)), r2)

/-- Scan a JSON number (`NUMBER_RE` of Python's json module). -/
def parseNum (cs : List Char) : Option (JValue × List Char) :=
  let (neg, cs1) : Bool × List Char := match cs with | '-' :: r => (true, r) | _ => (false, cs)
  match cs1 with
  | '0' :: r => some (finishNum neg ['0'] r)
  | c :: r =>
    if c.isDigit then
      let (d, r') := takeDigits r
      some (finishNum neg (c :: d) r')
    else none
  | [] => none

mutual
/-- Python `json.loads` value scanner (fuelled; every recursive call
consumes input, so fuel `≥ length + 1` never runs out). -/
def parseVal : Nat → List Char → Option (JValue × List Char)
  | 0, _ => none
  | _ + 1, [] => none
  | fuel + 1, c :: rest =>
    match c, rest with
    | '"', r => (parseJStringBody (r.length + 1) r).map fun (s, r') => (JValue.str (String.mk s), r')
    | '[', r =>
      (match skipWs r with
       | ']' :: r' => some (JValue.arr [], r')
       | r2 => (parseArrItems fuel r2).map fun (vs, rr) => (JValue.arr vs, rr))
    | '\x7b', r =>
      (match skipWs r with
       | '\x7d' :: r' => some (JValue.obj [], r')
       | r2 => (parseObjItems fuel r2).map fun (ms, rr) => (JValue.obj ms, rr))
    | 'n', 'u' :: 'l' :: 'l' :: r => some (JValue.null, r)
    | 't', 'r' :: 'u' :: 'e' :: r => some (JValue.bool true, r)
    | 'f', 'a' :: 'l' :: 's' :: 'e' :: r => some (JValue.bool false, r)
    | 'N', 'a' :: 'N' :: r => some (JValue.fnum "NaN", r)
    | 'I', 'n' :: 'f' :: 'i' :: 'n' :: 'i' :: 't' :: 'y' :: r => some (JValue.fnum "Infinity", r)
    | '-', 'I' :: 'n' :: 'f' :: 'i' :: 'n' :: 'i' :: 't' :: 'y' :: r =>
      some (JValue.fnum "-Infinity", r)
    | _, _ => parseNum (c :: rest)

/-- One or more comma-separated array items up to the closing bracket. -/
def parseArrItems : Nat → List Char → Option (List JValue × List Char)
  | 0, _ => none
  | fuel + 1, cs =>
    match parseVal fuel cs with
    | none => none
    | some (v, r) =>
      match skipWs r with
      | ',' :: r' =>
        (match parseArrItems fuel (skipWs r') with
         | some (vs, rr) => some (v :: vs, rr)
         | none => none)
      | ']' :: r' => some ([v], r')
      | _ => none

/-- One or more comma-separated object members up to the closing brace. -/
def parseObjItems : Nat → List Char → Option (List (String × JValue) × List Char)
  | 0, _ => none
  | fuel + 1, cs =>
    match cs with
    | '"' :: kr =>
      (match parseJStringBody (kr.length + 1) kr with
       | none => none
       | some (k, r) =>
         match skipWs r with
         | ':' :: r' =>
           (match parseVal fuel (skipWs r') with
            | none => none
            | some (v, r2) =>
              match skipWs r2 with
              | ',' :: r3 =>
                (match parseObjItems fuel (skipWs r3) with
                 | some (ms, rr) => some ((String.mk k, v) :: ms, rr)
                 | none => none)
              | '\x7d' :: r3 => some ([(String.mk k, v)], r3)
              | _ => none)
         | _ => none)
    | _ => none
end

/-- Python `json.loads`: a single JSON value, with surrounding whitespace
allowed and nothing else; `none` models `json.JSONDecodeError`. -/
def pyLoads (s : String) : Option JValue :=
  match parseVal (s.data.length + 1) (skipWs s.data) with
  | some (v, r) => if (skipWs r).isEmpty then some v else none
  | none => none

/-! ## Python runtime operations used by `Translator.translate` -/

/-- Exceptions of the embedded pipeline.  `invalidSrcLang` and
`invalidDestLang` are `ValueError("invalid source/destination language")`
(the spec's `InvalidLanguageCode`); `jsonDecode` is `json.JSONDecodeError`
(the spec's `MalformedResponse`); the rest are the builtin exceptions raised
by positional access on decoded JSON values. -/
inductive PyErr where
  | invalidSrcLang
  | invalidDestLang
  | jsonDecode
  | typeError
  | indexError
  | keyError

/-- Python subscription `v[i]` for a non-negative literal index `i` on a
decoded JSON value: list indexing, string indexing (a one-character string),
`KeyError` on dicts (whose keys are strings), `TypeError` otherwise. -/
def pyIndex (v : JValue) (i : Nat) : Except PyErr JValue :=
  match v with
  | .arr xs =>
    match xs.get? i with
    | some x => .ok x
    | none => .error .indexError
  | .str s =>
    match s.data.get? i with
    | some c => .ok (.str (String.mk [c]))
    | none => .error .indexError
  | .obj _ => .error .keyError
  | _ => .error .typeError

/-- Chained subscription `v[i₁][i₂]…`, first failure propagating. -/
def pyIndexPath (v : JValue) : List Nat → Except PyErr JValue
  | [] => .ok v
  | i :: is =>
    match pyIndex v i with
    | .ok w => pyIndexPath w is
    | .error e => .error e

/-- Python `len` on a decoded JSON value. -/
def pyLen (v : JValue) : Except PyErr Nat :=
  match v with
  | .arr xs => .ok xs.length
  | .str s => .ok s.data.length
  | .obj ms => .ok (ms.map Prod.fst).eraseDups.length
  | _ => .error .typeError

/-- Python iteration over a decoded JSON value (as consumed by `map`):
lists yield elements, strings yield one-character strings, dicts yield
their keys; other values raise `TypeError`. -/
def pyIter (v : JValue) : Except PyErr (List JValue) :=
  match v with
  | .arr xs => .ok xs
  | .str s => .ok (s.data.map fun c => .str (String.mk [c]))
  | .obj ms => .ok ((ms.map Prod.fst).eraseDups.map JValue.str)
  | _ => .error .typeError

/-- Python truthiness of a decoded JSON value (`bool(v)`). -/
def pyTruthy : JValue → Bool
  | .null => false
  | .bool b => b
  | .num n => n != 0
  | .fnum s =>
    if s == "NaN" || s == "Infinity" || s == "-Infinity" then true
    else !(s.data.all fun c => !c.isDigit || c == '0')
  | .str s => !s.data.isEmpty
  | .arr xs => !xs.isEmpty
  | .obj ms => !ms.isEmpty

/-- `list(map(f, xs))`: left-to-right, the first exception propagating. -/
def mapE (f : α → Except PyErr β) : List α → Except PyErr (List β)
  | [] => .ok []
  | x :: xs =>
    match f x with
    | .ok y =>
      match mapE f xs with
      | .ok ys => .ok (y :: ys)
      | .error e => .error e
    | .error e => .error e

/-- `sep.join(strings)` for plain strings. -/
def joinSep (sep : String) : List String → String
  | [] => ""
  | [x] => x
  | x :: xs => x ++ sep ++ joinSep sep xs

/-- The element check of `str.join`: only `str` elements are accepted. -/
def strOfJ : JValue → Except PyErr String
  | .str s => .ok s
  | _ => .error .typeError

/-- `sep.join(values)`: raises `TypeError` unless every element is a `str`. -/
def pyJoin (sep : String) (vs : List JValue) : Except PyErr String :=
  match mapE strOfJ vs with
  | .ok ss => .ok (joinSep sep ss)
  | .error e => .error e

/-- `try: x = e except: pass` around a read with default `d`. -/
def exceptD (e : Except PyErr JValue) (d : JValue) : JValue :=
  match e with
  | .ok v => v
  | .error _ => d

/-! ## Result containers (`googletrans/models.py` is not part of the
sources; these record shapes are modelled from the spec's data model:
`TranslatedPart {text, alternatives}`, `TranslationResult`,
`DetectionResult {language, confidence}`). -/

/-- Modelled from the spec: `TranslatedPart` of `googletrans/models.py`, a
plain container for one translated segment. -/
structure TranslatedPart where
  text : JValue
  alternatives : JValue

/-- Modelled from the spec: the `extra_data` dictionary assembled by
`Translator.translate`, with its four fixed keys. -/
structure ExtraData where
  confidence : JValue
  parts : List TranslatedPart
  origin_pronunciation : JValue
  parsed : JValue

/-- Modelled from the spec: `Translated` of `googletrans/models.py`, a plain
container for the fields `Translator.translate` passes to it. -/
structure Translated where
  src : JValue
  dest : String
  origin : String
  text : String
  pronunciation : JValue
  parts : List TranslatedPart
  extra_data : ExtraData

/-- Modelled from the spec: `Detected` of `googletrans/models.py`, a plain
container for a detected language and a confidence. -/
structure Detected where
  lang : JValue
  confidence : JValue

/-! ## The language tables (`googletrans/constants.py` is not part of the
sources; contents modelled from the spec: a canonical-code set, a
special-case exception table and an alias table, illustrated with the codes
the spec names). -/

/-- Modelled from the spec: the keys of `LANGUAGES` of
`googletrans/constants.py`, the canonical language codes. -/
def LANGUAGES : List String := ["ca", "en", "es", "et", "fr", "ko", "zh"]

/-- Modelled from the spec: `SPECIAL_CASES` of `googletrans/constants.py`,
the special-case exception table mapping to canonical codes. -/
def SPECIAL_CASES : List (String × String) := [("ee", "et")]

/-- Modelled from the spec: `LANGCODES` of `googletrans/constants.py`, the
alias table mapping language names to canonical codes. -/
def LANGCODES : List (String × String) :=
  [("catalan", "ca"), ("english", "en"), ("spanish", "es"), ("estonian", "et"),
   ("french", "fr"), ("korean", "ko"), ("chinese", "zh")]

/-- `code.lower().split("_", 1)[0]`: lowercase, then keep what stands before
the first underscore. -/
def normCode (s : String) : String :=
  String.mk ((s.data.map Char.toLower).takeWhile fun c => c ≠ '_')

/-- Resolution of the source language (`client.py` lines 173-179): `"auto"`
and canonical codes pass unchanged, otherwise the special-case table, then
the alias table, else `ValueError`. -/
def resolveSrc (src : String) : Except PyErr String :=
  if src ≠ "auto" ∧ src ∉ LANGUAGES then
    match List.lookup src SPECIAL_CASES with
    | some v => .ok v
    | none =>
      match List.lookup src LANGCODES with
      | some v => .ok v
      | none => .error .invalidSrcLang
  else .ok src

/-- Resolution of the destination language (`client.py` lines 181-187):
no `"auto"` bypass. -/
def resolveDest (dest : String) : Except PyErr String :=
  if dest ∉ LANGUAGES then
    match List.lookup dest SPECIAL_CASES with
    | some v => .ok v
    | none =>
      match List.lookup dest LANGCODES with
      | some v => .ok v
      | none => .error .invalidDestLang
  else .ok dest

/-! ## Response extraction (`client.py` lines 192-212) -/

/-- The fixed RPC identifier of the translation call. -/
def RPC_ID : String := "MkEWBc"

/-- `data.split("\n")`: Python string split on a single newline. -/
def splitNl : List Char → List (List Char)
  | [] => [[]]
  | c :: rest =>
    if c = '\n' then [] :: splitNl rest
    else
      match splitNl rest with
      | [] => [[c]]
      | l :: ls => (c :: l) :: ls

/-- The lines of a response body, as `data.split("\n")` yields them. -/
def pyLines (body : String) : List String :=
  (splitNl body.data).map String.mk

/-- `pat` begins `l`. -/
def leadsWith : List Char → List Char → Bool
  | [], _ => true
  | _ :: _, [] => false
  | p :: ps, c :: cs => p == c && leadsWith ps cs

/-- `pat` occurs contiguously inside `hay` (Python's `in` on strings). -/
def containsSeq : List Char → List Char → Bool
  | [], pat => pat.isEmpty
  | c :: t, pat => leadsWith pat (c :: t) || containsSeq t pat

/-- `f'"{RPC_ID}"' in line[:30]`: the quoted identifier occurs within the
first 30 characters of the line. -/
def hasToken30 (line : String) : Bool :=
  containsSeq (line.data.take 30) "\"MkEWBc\"".data

/-- The inner character scan of one line (`client.py` lines 200-208): a
double quote not preceded by a backslash toggles string mode (for the first
character the "preceding" character is the character itself, from
`line[max(0, index - 1)]`), and square brackets are counted only outside
string mode, after the toggle. -/
def countLineAux : Char → List Char → Bool → Nat → Nat → Nat × Nat
  | _, [], _, o, c => (o, c)
  | prev, ch :: rest, inStr, o, c =>
    let inStr' := if ch = '"' ∧ prev ≠ '\\' then !inStr else inStr
    let o' := if !inStr' ∧ ch = '[' then o + 1 else o
    let c' := if !inStr' ∧ ch = ']' then c + 1 else c
    countLineAux ch rest inStr' o' c'

/-- Open- and close-bracket counts of one line, outside quoted strings,
with string mode starting afresh (`is_in_string = False`) on each line. -/
def lineCounts (line : String) : Nat × Nat :=
  match line.data with
  | [] => (0, 0)
  | ch :: rest => countLineAux ch (ch :: rest) false 0 0

/-- The extraction loop (`client.py` lines 192-212): skip lines until the
quoted RPC identifier appears in a line's first 30 characters, then append
lines (without their newlines) to the buffer, stopping as soon as the
cumulative open- and close-bracket counts agree; if the lines run out the
buffer is returned as is. -/
def extractAux : List String → Bool → Nat → Nat → String → String
  | [], _, _, _, resp => resp
  | line :: rest, tokenFound, o, c, resp =>
    let tokenFound' := tokenFound || hasToken30 line
    if !tokenFound' then extractAux rest tokenFound' o c resp
    else
      let (a, b) := lineCounts line
      let o' := o + a
      let c' := c + b
      let resp' := resp ++ line
      if o' = c' then resp' else extractAux rest tokenFound' o' c' resp'

/-- The payload slice handed to `json.loads` for a given response body. -/
def extract (body : String) : String :=
  extractAux (pyLines body) false 0 0 ""

/-! ## Request encoding (`client.py` lines 98-113) -/

/-- `Translator._build_rpc_request`: the doubly-encoded RPC payload. -/
def build_rpc_request (text : String) (dest : String) (src : String) : String :=
  pyDumps (.arr [.arr [.arr [.str RPC_ID,
    .str (pyDumps (.arr [.arr [.str text, .str src, .str dest, .bool true], .arr [.null]])),
    .null, .str "generic"]]])

/-! ## Result parsing (`client.py` lines 214-270) and the orchestrator -/

/-- Python `v == "auto"` for a value that started as a string but may have
been replaced by an arbitrary decoded JSON value. -/
def isAutoStr : JValue → Bool
  | .str s => s == "auto"
  | _ => false

/-- The detected-source fallback (`client.py` lines 228-237): when the
(possibly already replaced) source equals `"auto"`, try `parsed[2]`, then
`parsed[0][2]`, each read wrapped in `try/except: pass`. -/
def resolveAutoSrc (src : String) (parsed : JValue) : JValue :=
  let s : JValue := .str src
  let s := if isAutoStr s then exceptD (pyIndexPath parsed [2]) s else s
  let s := if isAutoStr s then exceptD (pyIndexPath parsed [0, 2]) s else s
  s

/-- `lambda part: TranslatedPart(part[0], part[1] if len(part) >= 2 else [])`
(`client.py` line 220). -/
def toTranslatedPart (part : JValue) : Except PyErr TranslatedPart :=
  match pyIndex part 0 with
  | .error e => .error e
  | .ok t =>
    match pyLen part with
    | .error e => .error e
    | .ok n =>
      match (if 2 ≤ n then pyIndex part 1 else .ok (JValue.arr [])) with
      | .error e => .error e
      | .ok alt => .ok ⟨t, alt⟩

/-- The positional parsing of the decoded body and assembly of the result
(`client.py` lines 217-270): spacing flag at `parsed[1][0][0][3]`, segments
at `parsed[1][0][0][5]`, join with `" "` or `""` by the flag's truthiness,
then the best-effort reads for detected source, origin pronunciation
(`parsed[0][0]`) and pronunciation (`parsed[1][0][0][1]`), and `confidence`
fixed to `None`. -/
def parseStage (parsed : JValue) (src dest origin : String) : Except PyErr Translated :=
  match pyIndexPath parsed [1, 0, 0, 3] with
  | .error e => .error e
  | .ok shouldSpacing =>
    match pyIndexPath parsed [1, 0, 0, 5] with
    | .error e => .error e
    | .ok partsVal =>
      match pyIter partsVal with
      | .error e => .error e
      | .ok items =>
        match mapE toTranslatedPart items with
        | .error e => .error e
        | .ok translated_parts =>
          match pyJoin (if pyTruthy shouldSpacing then " " else "") (translated_parts.map (·.text)) with
          | .error e => .error e
          | .ok translated =>
            let srcV := resolveAutoSrc src parsed
            let confidence := JValue.null
            let origin_pronunciation := exceptD (pyIndexPath parsed [0, 0]) JValue.null
            let pronunciation := exceptD (pyIndexPath parsed [1, 0, 0, 1]) JValue.null
            .ok { src := srcV, dest := dest, origin := origin, text := translated,
                  pronunciation := pronunciation, parts := translated_parts,
                  extra_data := { confidence := confidence, parts := translated_parts,
                                  origin_pronunciation := origin_pronunciation, parsed := parsed } }

/-- `Translator.translate(text, dest, src)` given the transport's response
body: resolve both languages, (build and send the request — the transport is
a collaborator, the body is given), extract the payload, decode the two
envelope layers, parse positionally. -/
def Translator.translate (text : String) (dest : String) (src : String) (body : String) :
    Except PyErr Translated :=
  let destN := normCode dest
  let srcN := normCode src
  match resolveSrc srcN with
  | .error e => .error e
  | .ok srcR =>
    match resolveDest destN with
    | .error e => .error e
    | .ok destR =>
      let origin := text
      let resp := extract body
      match pyLoads resp with
      | none => .error .jsonDecode
      | some dataJ =>
        match pyIndexPath dataJ [0, 2] with
        | .error e => .error e
        | .ok enc =>
          match enc with
          | .str encS =>
            match pyLoads encS with
            | none => .error .jsonDecode
            | some parsed => parseStage parsed srcR destR origin
          | _ => .error .typeError

/-- `Translator.detect`: a full translation to English from `"auto"`,
repackaged (`client.py` lines 272-279). -/
def Translator.detect (text : String) (body : String) : Except PyErr Detected :=
  match Translator.translate text "en" "auto" body with
  | .error e => .error e
  | .ok translated => .ok { lang := translated.src, confidence := translated.extra_data.confidence }

/-! ## Claim-side definitions (predicates and reference shapes the spec's
sentences quantify with; the embedding above is the authority) -/

/-- Concatenation of strings with no separator. -/
def concatList : List String → String :=
  List.foldr (· ++ ·) ""

/-- The accumulation phase of the extraction loop, from the first
identifier-carrying line on: append lines until the cumulative bracket
counts agree at a line end; if they never do, every remaining line is
appended. -/
def accumulate : List String → Nat → Nat → String
  | [], _, _ => ""
  | l :: rest, o, c =>
    let (a, b) := lineCounts l
    if o + a = c + b then l else l ++ accumulate rest (o + a) (c + b)

/-- Whether some line end, from this point on, makes the cumulative
open- and close-bracket counts equal. -/
def lineEndsBalancedFrom : List String → Nat → Nat → Bool
  | [], _, _ => false
  | l :: rest, o, c =>
    let (a, b) := lineCounts l
    (o + a == c + b) || lineEndsBalancedFrom rest (o + a) (c + b)

/-- The identifier is found, and from the first line carrying it to
end-of-input the scanner's bracket counts never become equal at a line
end (the loop's stopping condition never fires). -/
def neverBalanced (body : String) : Bool :=
  let ls := (pyLines body).dropWhile fun l => !hasToken30 l
  !ls.isEmpty && !lineEndsBalancedFrom ls 0 0

/-- A decoded body lacking the critical fixed positions: the spacing flag
`parsed[1][0][0][3]`, the segment list `parsed[1][0][0][5]`, or a segment
without a first element. -/
def BadStruct (parsed : JValue) : Prop :=
  (∃ e, pyIndexPath parsed [1, 0, 0, 3] = .error e)
  ∨ (∃ e, pyIndexPath parsed [1, 0, 0, 5] = .error e)
  ∨ (∃ parts p, pyIndexPath parsed [1, 0, 0, 5] = .ok (.arr parts) ∧ p ∈ parts ∧
      ∃ e, pyIndex p 0 = .error e)

/-- The spec's request template (§4.2): the quoted RPC identifier, the
inner array JSON-encoded into a string literal, `null`, `"generic"`, in
this order, inside three brackets. -/
def specRequest (text source destination : String) : String :=
  let inner := "[[" ++ dumpStr text ++ "," ++ dumpStr source ++ "," ++ dumpStr destination
    ++ ",true],[null]]"
  "[[[" ++ dumpStr RPC_ID ++ "," ++ dumpStr inner ++ ",null,\"generic\"]]]"

/-! ## Concrete response fixtures -/

/-- A well-formed single-line response: spacing flag `true`, one segment
`"hola"`, detected language `"es"` at `parsed[2]`. -/
def happyLine : String :=
  "[[\"wrb.fr\",\"MkEWBc\",\"[null,[[[null,null,null,true,null,[[\\\"hola\\\"]]]]],\\\"es\\\"]\",null,null,null,\"generic\"]]"

/-- The decoded inner body of `happyLine`. -/
def parsedHappy : JValue :=
  .arr [.null,
        .arr [.arr [.arr [.null, .null, .null, .bool true, .null,
                          .arr [.arr [.str "hola"]]]]],
        .str "es"]

/-- The result `translate` assembles from `happyLine`. -/
def happyResult : Translated :=
  { src := .str "es", dest := "en", origin := "hola", text := "hola",
    pronunciation := .null,
    parts := [⟨.str "hola", .arr []⟩],
    extra_data := { confidence := .null, parts := [⟨.str "hola", .arr []⟩],
                    origin_pronunciation := .null, parsed := parsedHappy } }

/-- A single-line response whose last string ends in a backslash
(`"x\\"`): the scanner believes the line ends inside a string, misses the
closing brackets, and its counts never become equal — yet the line is
valid JSON of the expected shape. -/
def cbody2 : String :=
  "[[\"wrb.fr\",\"MkEWBc\",\"[null,[[[null,null,null,true,null,[[\\\"hola\\\"]]]]],\\\"es\\\"]\",\"x\\\\\"]]"

/-- First line of a payload spanning two lines (bracket counts 2 open,
0 close at its end). -/
def line61 : String :=
  "[[\"wrb.fr\",\"MkEWBc\",\"[null,[[[null,null,null,true,null,[[\\\"A\\\"]]]]]]\","

/-- Second line of the two-line payload (balances the brackets). -/
def line62 : String := "null,null,null,\"generic\"]]"

/-- A response whose payload spans two lines. -/
def body6 : String := line61 ++ "\n" ++ line62

/-- A line that carries the quoted RPC identifier only beyond its first 30
characters, inside a quoted string. -/
def line03 : String :=
  "[\"junkvalue-padding-padding-pad\",\"MkEWBc-like \\\"MkEWBc\\\" data\"]"

/-- A response with a decoy identifier occurrence before the payload. -/
def body3 : String := line03 ++ "\n" ++ happyLine

/-- A response whose decoded body is `[null,[[[null]]]]`: the two envelope
layers decode, but the spacing-flag position `parsed[1][0][0][3]` is
absent. -/
def body10 : String :=
  "[[\"wrb.fr\",\"MkEWBc\",\"[null,[[[null]]]]\",null,null,null,\"generic\"]]"

/-- The decoded inner body of `body10`. -/
def parsedBody10 : JValue := .arr [.null, .arr [.arr [.arr [.null]]]]

/-! ## Extraction lemmas -/

theorem concatList_cons (a : String) (as : List String) :
    concatList (a :: as) = a ++ concatList as := rfl

theorem str_empty_append (a : String) : "" ++ a = a := String.empty_append a

/-- Once the identifier has been seen, the loop appends lines exactly as
`accumulate` describes. -/
theorem extractAux_true (lines : List String) :
    ∀ o c resp, extractAux lines true o c resp = resp ++ accumulate lines o c := by
  induction lines with
  | nil => intro o c resp; simp [extractAux, accumulate, String.append_empty]
  | cons l rest ih =>
    intro o c resp
    simp only [extractAux, accumulate, Bool.true_or]
    rcases h : lineCounts l with ⟨a, b⟩
    by_cases hb : o + a = c + b
    · simp [hb]
    · simp [hb, ih, String.append_assoc]

/-- The extraction loop skips every line before the first one carrying the
identifier in its first 30 characters, then accumulates. -/
theorem extract_eq_accumulate (body : String) :
    extract body = accumulate ((pyLines body).dropWhile fun l => !hasToken30 l) 0 0 := by
  unfold extract
  generalize pyLines body = lines
  induction lines with
  | nil => rfl
  | cons l rest ih =>
    by_cases h : hasToken30 l
    · simp only [List.dropWhile_cons, h, Bool.not_true, Bool.false_eq_true, if_false]
      simp only [extractAux, accumulate, h, Bool.false_or, Bool.not_true]
      rcases hc : lineCounts l with ⟨a, b⟩
      by_cases hb : 0 + a = 0 + b
      · simp [hb, str_empty_append]
      · simp [hb, extractAux_true, str_empty_append]
    · simp only [List.dropWhile_cons, h, Bool.not_false, if_true]
      rw [show extractAux (l :: rest) false 0 0 "" = extractAux rest false 0 0 "" from by
        simp [extractAux, h]]
      exact ih

/-- If no line end balances the counts, every remaining line is appended. -/
theorem accumulate_concat_of_never (lines : List String) :
    ∀ o c, lineEndsBalancedFrom lines o c = false → accumulate lines o c = concatList lines := by
  induction lines with
  | nil => intro o c _; rfl
  | cons l rest ih =>
    intro o c h
    simp only [lineEndsBalancedFrom] at h
    rcases hc : lineCounts l with ⟨a, b⟩
    rw [hc] at h
    simp only [Bool.or_eq_false_iff] at h
    obtain ⟨h1, h2⟩ := h
    have h1' : ¬ (o + a = c + b) := by simpa using h1
    simp [accumulate, hc, h1', ih _ _ h2, concatList_cons]

/-- Whatever happens, `accumulate` returns the concatenation of an initial
run of its lines. -/
theorem accumulate_take (lines : List String) :
    ∀ o c, ∃ j, accumulate lines o c = concatList (lines.take j) := by
  induction lines with
  | nil => intro o c; exact ⟨0, rfl⟩
  | cons l rest ih =>
    intro o c
    rcases hc : lineCounts l with ⟨a, b⟩
    by_cases hb : o + a = c + b
    · exact ⟨1, by simp [accumulate, hc, hb, concatList, String.append_empty]⟩
    · obtain ⟨j, hj⟩ := ih (o + a) (c + b)
      exact ⟨j + 1, by simp [accumulate, hc, hb, hj, concatList_cons]⟩

/-- Dropping a decided run of lines is dropping a count of lines. -/
theorem dropWhile_eq_drop (p : String → Bool) (l : List String) :
    ∃ i, l.dropWhile p = l.drop i := by
  induction l with
  | nil => exact ⟨0, rfl⟩
  | cons x xs ih =>
    by_cases h : p x
    · obtain ⟨i, hi⟩ := ih
      exact ⟨i + 1, by simp [List.dropWhile_cons, h, hi]⟩
    · exact ⟨0, by simp [List.dropWhile_cons, h]⟩



/-! ## Parse-stage lemmas -/

/-- Positional access raises only builtin access exceptions. -/
theorem pyIndex_error_kind (v : JValue) (i : Nat) (e : PyErr) (h : pyIndex v i = .error e) :
    e = .typeError ∨ e = .indexError ∨ e = .keyError := by
  cases v with
  | arr xs =>
    simp only [pyIndex] at h
    cases hx : xs.get? i <;> rw [hx] at h <;> simp_all
  | str s =>
    simp only [pyIndex] at h
    cases hx : s.data.get? i <;> rw [hx] at h <;> simp_all
  | obj ms => simp only [pyIndex] at h; simp_all
  | null => simp only [pyIndex] at h; simp_all
  | bool b => simp only [pyIndex] at h; simp_all
  | num n => simp only [pyIndex] at h; simp_all
  | fnum s => simp only [pyIndex] at h; simp_all

/-- Chained positional access raises only builtin access exceptions. -/
theorem pyIndexPath_error_kind (is : List Nat) :
    ∀ (v : JValue) (e : PyErr), pyIndexPath v is = .error e →
      e = .typeError ∨ e = .indexError ∨ e = .keyError := by
  induction is with
  | nil => intro v e h; cases h
  | cons i is ih =>
    intro v e h
    simp only [pyIndexPath] at h
    cases hx : pyIndex v i with
    | ok w => rw [hx] at h; exact ih w e h
    | error e2 => rw [hx] at h; cases h; exact pyIndex_error_kind v i _ hx

/-- `len` raises only `TypeError`. -/
theorem pyLen_error_kind (v : JValue) (e : PyErr) (h : pyLen v = .error e) : e = .typeError := by
  cases v <;> simp_all [pyLen]

/-- Iteration raises only `TypeError`. -/
theorem pyIter_error_kind (v : JValue) (e : PyErr) (h : pyIter v = .error e) : e = .typeError := by
  cases v <;> simp_all [pyIter]

/-- A raising map has a raising element. -/
theorem mapE_error_inv (f : α → Except PyErr β) (l : List α) (e : PyErr)
    (h : mapE f l = .error e) : ∃ x ∈ l, f x = .error e := by
  induction l with
  | nil => cases h
  | cons x xs ih =>
    simp only [mapE] at h
    cases hy : f x with
    | error e2 =>
      rw [hy] at h
      cases h
      exact ⟨x, List.mem_cons_self x xs, hy⟩
    | ok y =>
      rw [hy] at h
      cases hys : mapE f xs with
      | error e2 =>
        rw [hys] at h
        cases h
        obtain ⟨z, hz, hfz⟩ := ih hys
        exact ⟨z, List.mem_cons_of_mem x hz, hfz⟩
      | ok ys => rw [hys] at h; cases h

/-- Segment conversion raises only builtin access exceptions. -/
theorem toTranslatedPart_error_kind (p : JValue) (e : PyErr) (h : toTranslatedPart p = .error e) :
    e = .typeError ∨ e = .indexError ∨ e = .keyError := by
  unfold toTranslatedPart at h
  split at h
  · rename_i e1 heq
    cases h
    exact pyIndex_error_kind p 0 _ heq
  · rename_i t heq
    split at h
    · rename_i e1 hl
      cases h
      exact Or.inl (pyLen_error_kind p _ hl)
    · rename_i n hl
      split at h
      · rename_i e1 halt
        cases h
        split at halt
        · exact pyIndex_error_kind p 1 _ halt
        · cases halt
      · rename_i alt halt
        cases h

/-- Joining raises only `TypeError`. -/
theorem pyJoin_error_kind (sep : String) (vs : List JValue) (e : PyErr)
    (h : pyJoin sep vs = .error e) : e = .typeError := by
  unfold pyJoin at h
  split at h
  · cases h
  · rename_i e2 hm
    cases h
    obtain ⟨x, _, hx⟩ := mapE_error_inv _ _ _ hm
    cases x <;> simp_all [strOfJ]

/-- The parse stage never raises a language or decode error. -/
theorem parseStage_error_kind (parsed : JValue) (src dest origin : String) (e : PyErr)
    (h : parseStage parsed src dest origin = .error e) :
    e = .typeError ∨ e = .indexError ∨ e = .keyError := by
  unfold parseStage at h
  split at h
  · rename_i e1 h3
    cases h
    exact pyIndexPath_error_kind _ _ _ h3
  · rename_i flag h3
    split at h
    · rename_i e1 h5
      cases h
      exact pyIndexPath_error_kind _ _ _ h5
    · rename_i pv h5
      split at h
      · rename_i e1 hit
        cases h
        exact Or.inl (pyIter_error_kind _ _ hit)
      · rename_i items hit
        split at h
        · rename_i e1 hm
          cases h
          obtain ⟨x, _, hx⟩ := mapE_error_inv _ _ _ hm
          exact toTranslatedPart_error_kind _ _ hx
        · rename_i tps hm
          split at h
          · rename_i e1 hj
            cases h
            exact Or.inl (pyJoin_error_kind _ _ _ hj)
          · rename_i t hj
            cases h

/-- A well-formed segment converts without an exception, keeping its text. -/
theorem toTranslatedPart_ok (s : String) (rest : List JValue) :
    ∃ alt, toTranslatedPart (.arr (.str s :: rest)) = .ok ⟨.str s, alt⟩ := by
  cases rest with
  | nil => exact ⟨.arr [], rfl⟩
  | cons r rs =>
    refine ⟨r, ?_⟩
    have h2 : 2 ≤ (JValue.str s :: r :: rs : List JValue).length := by simp
    simp [toTranslatedPart, pyIndex, pyLen, List.get?, h2]

/-- Mapping over well-formed segments succeeds, and the texts are the
evident strings. -/
theorem mapE_parts_ok (parts : List JValue)
    (hp : ∀ p ∈ parts, ∃ s rest, p = JValue.arr (.str s :: rest)) :
    ∃ (tps : List TranslatedPart) (ss : List String),
      mapE toTranslatedPart parts = .ok tps ∧
      tps.map TranslatedPart.text = ss.map JValue.str := by
  induction parts with
  | nil => exact ⟨[], [], rfl, rfl⟩
  | cons p parts ih =>
    obtain ⟨s, rest, hps⟩ := hp p (List.mem_cons_self p parts)
    obtain ⟨tps, ss, htps, hss⟩ := ih fun q hq => hp q (List.mem_cons_of_mem p hq)
    obtain ⟨alt, halt⟩ := toTranslatedPart_ok s rest
    refine ⟨⟨.str s, alt⟩ :: tps, s :: ss, ?_, ?_⟩
    · rw [hps]; simp [mapE, halt, htps]
    · simp [hss]

/-- Unwrapping a list of strings succeeds. -/
theorem mapE_unstr (ss : List String) :
    mapE strOfJ (ss.map JValue.str) = .ok ss := by
  induction ss with
  | nil => rfl
  | cons s ss ih => simp [mapE, strOfJ, ih]

/-- Joining a list of strings never raises. -/
theorem pyJoin_map_str (sep : String) (ss : List String) :
    pyJoin sep (ss.map JValue.str) = .ok (joinSep sep ss) := by
  simp [pyJoin, mapE_unstr]

/-- On a structurally valid decoded body the parse stage succeeds, and the
assembled result joins the segment texts with the flag-selected separator,
takes its source from the fallback chain, and has a `null` confidence. -/
theorem parseStage_ok_of_valid (parsed : JValue) (src dest origin : String) (b : Bool)
    (parts : List JValue)
    (h3 : pyIndexPath parsed [1, 0, 0, 3] = .ok (.bool b))
    (h5 : pyIndexPath parsed [1, 0, 0, 5] = .ok (.arr parts))
    (hp : ∀ p ∈ parts, ∃ s rest, p = JValue.arr (.str s :: rest)) :
    ∃ (r : Translated) (ss : List String), parseStage parsed src dest origin = .ok r ∧
      r.parts.map TranslatedPart.text = ss.map JValue.str ∧
      r.text = joinSep (if b then " " else "") ss ∧
      r.src = resolveAutoSrc src parsed ∧
      r.dest = dest ∧ r.origin = origin ∧
      r.extra_data.confidence = JValue.null := by
  obtain ⟨tps, ss, htps, hss⟩ := mapE_parts_ok parts hp
  refine ⟨{ src := resolveAutoSrc src parsed, dest := dest, origin := origin,
            text := joinSep (if b then " " else "") ss,
            pronunciation := exceptD (pyIndexPath parsed [1, 0, 0, 1]) JValue.null,
            parts := tps,
            extra_data := { confidence := JValue.null, parts := tps,
                            origin_pronunciation := exceptD (pyIndexPath parsed [0, 0]) JValue.null,
                            parsed := parsed } }, ss, ?_, hss, rfl, rfl, rfl, rfl, rfl⟩
  have hjoin := pyJoin_map_str (if b then " " else "") ss
  simp [parseStage, h3, h5, pyIter, htps, pyTruthy, hss, hjoin]

/-- Any successful parse has a `null` confidence, the fallback-chain source
and the given destination. -/
theorem parseStage_ok_shape (parsed : JValue) (src dest origin : String) (r : Translated)
    (h : parseStage parsed src dest origin = .ok r) :
    r.extra_data.confidence = JValue.null ∧ r.src = resolveAutoSrc src parsed ∧
      r.dest = dest := by
  unfold parseStage at h
  split at h
  · cases h
  · split at h
    · cases h
    · split at h
      · cases h
      · split at h
        · cases h
        · split at h
          · cases h
          · cases h
            exact ⟨rfl, rfl, rfl⟩

/-- When both envelope layers decode, `translate` is the parse stage. -/
theorem translate_decomp (text src dest body srcR destR encS : String) (dataJ parsed : JValue)
    (hsrc : resolveSrc (normCode src) = .ok srcR)
    (hdest : resolveDest (normCode dest) = .ok destR)
    (hload : pyLoads (extract body) = some dataJ)
    (henc : pyIndexPath dataJ [0, 2] = .ok (.str encS))
    (hparsed : pyLoads encS = some parsed) :
    Translator.translate text dest src body = parseStage parsed srcR destR text := by
  simp [Translator.translate, hsrc, hdest, hload, henc, hparsed]

/-- A source-resolution failure is the call's result, whatever the body. -/
theorem translate_src_error (text dest src body : String) (e : PyErr)
    (h : resolveSrc (normCode src) = .error e) :
    Translator.translate text dest src body = .error e := by
  simp [Translator.translate, h]

/-- A destination-resolution failure is the call's result, whatever the
body, once the source resolves. -/
theorem translate_dest_error (text dest src body srcR : String) (e : PyErr)
    (hs : resolveSrc (normCode src) = .ok srcR)
    (h : resolveDest (normCode dest) = .error e) :
    Translator.translate text dest src body = .error e := by
  simp [Translator.translate, hs, h]

/-- Any successful call has a `null` confidence in its extra data. -/
theorem translate_ok_confidence (text dest src body : String) (r : Translated)
    (h : Translator.translate text dest src body = .ok r) :
    r.extra_data.confidence = JValue.null := by
  unfold Translator.translate at h
  dsimp only at h
  split at h
  · cases h
  · split at h
    · cases h
    · split at h
      · cases h
      · split at h
        · cases h
        · split at h
          · split at h
            · cases h
            · exact (parseStage_ok_shape _ _ _ _ _ h).1
          · cases h

/-! ## Claim C2 -/

/-- C2 (counterexample): for the response body `cbody2` the scanner's
bracket counts never become equal from the identifier line to end-of-input,
yet the call does not fail — it returns a result, because the accumulated
remainder happens to be valid JSON of the expected shape (the scanner
mis-tracks a string ending in a backslash). -/
theorem C2_counterexample :
    neverBalanced cbody2 = true ∧
    ∃ r, Translator.translate "x" "en" "auto" cbody2 = .ok r :=
  ⟨rfl, ⟨_, rfl⟩⟩

/-- C2 (amended): when the identifier is found and the bracket counts never
become equal at any line end, the extraction loop terminates after
consuming every remaining line, handing the entire remainder — every line
from the identifier line to end-of-input, concatenated — to the JSON
decoder; failure is then up to the decoder, not guaranteed. -/
theorem C2_never_balanced_whole_remainder (body : String) (h : neverBalanced body = true) :
    extract body = concatList ((pyLines body).dropWhile fun l => !hasToken30 l) := by
  unfold neverBalanced at h
  rw [Bool.and_eq_true] at h
  rw [extract_eq_accumulate]
  exact accumulate_concat_of_never _ 0 0 (by simpa using h.2)

/-- C2 (witness): the amended statement at the concrete body `cbody2`. -/
theorem C2_witness :
    neverBalanced cbody2 = true ∧
    extract cbody2 = concatList ((pyLines cbody2).dropWhile fun l => !hasToken30 l) :=
  ⟨rfl, C2_never_balanced_whole_remainder cbody2 rfl⟩

/-! ## Claim C3 -/

/-- C3: the extraction loop starts accumulating exactly at the first line
whose first 30 characters contain the quoted RPC identifier; identifier
occurrences beyond the 30-character guard in earlier lines (for instance
inside quoted string data) do not start it, and the payload is accumulated
from the true start line. -/
theorem C3_extraction_start (body : String) (pre rest : List String) (l : String)
    (hsplit : pyLines body = pre ++ l :: rest)
    (hpre : ∀ p ∈ pre, hasToken30 p = false)
    (hl : hasToken30 l = true) :
    extract body = accumulate (l :: rest) 0 0 := by
  rw [extract_eq_accumulate, hsplit]
  congr 1
  clear hsplit
  induction pre with
  | nil => simp [List.dropWhile_cons, hl]
  | cons p ps ih =>
    have hp := hpre p (List.mem_cons_self p ps)
    simp only [List.cons_append, List.dropWhile_cons, hp, Bool.not_false, if_true]
    exact ih fun q hq => hpre q (List.mem_cons_of_mem p hq)

/-- C3 (witness): `body3` carries the identifier token inside a quoted
string beyond the 30-character guard in its first line; extraction starts
at the second line, the real payload. -/
theorem C3_witness :
    hasToken30 line03 = false ∧
    extract body3 = accumulate [happyLine] 0 0 ∧
    extract body3 = happyLine := by
  refine ⟨rfl, ?_, rfl⟩
  exact C3_extraction_start body3 [line03] [] happyLine rfl
    (by intro p hp; simp only [List.mem_singleton] at hp; subst hp; rfl) rfl

/-! ## Claim C6 -/

/-- C6 (counterexample): for the two-line payload of `body6`, the slice
handed to the JSON decoder is the two payload lines concatenated without
their newline, which is not a contiguous substring of the raw body. -/
theorem C6_counterexample :
    containsSeq body6.data (extract body6).data = false ∧
    extract body6 = line61 ++ line62 :=
  ⟨rfl, rfl⟩

/-- C6 (amended): for every response body, the payload handed to the JSON
decoder is the concatenation, without newline separators, of a contiguous
run of the body's lines; when the payload spans several lines it need not
be a contiguous substring of the body, and its JSON validity is checked
only by the subsequent decode. -/
theorem C6_contiguous_line_run (body : String) :
    ∃ i j, extract body = concatList (((pyLines body).drop i).take j) := by
  obtain ⟨i, hi⟩ := dropWhile_eq_drop (fun l => !hasToken30 l) (pyLines body)
  obtain ⟨j, hj⟩ := accumulate_take ((pyLines body).drop i) 0 0
  exact ⟨i, j, by rw [extract_eq_accumulate, hi, hj]⟩

/-- If some element of a list raises, the map raises. -/
theorem mapE_error_of_mem (f : α → Except PyErr β) (l : List α) (p : α)
    (hmem : p ∈ l) (e : PyErr) (hf : f p = .error e) :
    ∃ e', mapE f l = .error e' := by
  induction l with
  | nil => cases hmem
  | cons x xs ih =>
    rcases List.mem_cons.mp hmem with h | h
    · subst h; exact ⟨e, by simp [mapE, hf]⟩
    · cases hx : f x with
      | error e2 => exact ⟨e2, by simp [mapE, hx]⟩
      | ok y =>
        obtain ⟨e', he'⟩ := ih h
        exact ⟨e', by simp [mapE, hx, he']⟩

/-! ## Claim C1 -/

/-- C1: for every structurally valid decoded response body (boolean spacing
flag at `parsed[1][0][0][3]`, segment list at `parsed[1][0][0][5]` whose
segments carry a string text), the text returned by `translate` is the
join of the texts of its translated parts, with separator a single space
exactly when the spacing flag is true and the empty string otherwise. -/
theorem C1_spacing_invariant (text src dest body srcR destR encS : String)
    (dataJ parsed : JValue) (b : Bool) (parts : List JValue)
    (hsrc : resolveSrc (normCode src) = .ok srcR)
    (hdest : resolveDest (normCode dest) = .ok destR)
    (hload : pyLoads (extract body) = some dataJ)
    (henc : pyIndexPath dataJ [0, 2] = .ok (.str encS))
    (hparsed : pyLoads encS = some parsed)
    (h3 : pyIndexPath parsed [1, 0, 0, 3] = .ok (.bool b))
    (h5 : pyIndexPath parsed [1, 0, 0, 5] = .ok (.arr parts))
    (hp : ∀ p ∈ parts, ∃ s rest, p = JValue.arr (.str s :: rest)) :
    ∃ (r : Translated) (ss : List String),
      Translator.translate text dest src body = .ok r ∧
      r.parts.map TranslatedPart.text = ss.map JValue.str ∧
      r.text = joinSep (if b then " " else "") ss := by
  obtain ⟨r, ss, hok, hmap, htext, -, -, -, -⟩ :=
    parseStage_ok_of_valid parsed srcR destR text b parts h3 h5 hp
  refine ⟨r, ss, ?_, hmap, htext⟩
  rw [translate_decomp text src dest body srcR destR encS dataJ parsed hsrc hdest hload henc
    hparsed]
  exact hok

/-- The decoded outer envelope of `happyLine`. -/
def dataHappy : JValue :=
  .arr [.arr [.str "wrb.fr", .str "MkEWBc",
    .str "[null,[[[null,null,null,true,null,[[\"hola\"]]]]],\"es\"]",
    .null, .null, .null, .str "generic"]]

/-- C1 (witness): the invariant at the concrete body `happyLine`. -/
theorem C1_witness :
    ∃ (r : Translated) (ss : List String),
      Translator.translate "hola" "en" "auto" happyLine = .ok r ∧
      r.parts.map TranslatedPart.text = ss.map JValue.str ∧
      r.text = joinSep (if true then " " else "") ss := by
  refine C1_spacing_invariant "hola" "auto" "en" happyLine "auto" "en"
    "[null,[[[null,null,null,true,null,[[\"hola\"]]]]],\"es\"]" dataHappy parsedHappy true
    [.arr [.str "hola"]] rfl rfl rfl rfl rfl rfl rfl ?_
  intro p hp
  simp only [List.mem_singleton] at hp
  subst hp
  exact ⟨"hola", [], rfl⟩

/-! ## Claim C10 -/

/-- C10: when both envelope layers decode but the decoded body lacks the
spacing-flag position, the segment-list position, or contains a segment
without a first element, the call fails, the parse-stage exception
propagating to the caller unchanged (a builtin access exception, not a
decode or language error). -/
theorem C10_critical_reads_fail (text src dest body srcR destR encS : String)
    (dataJ parsed : JValue)
    (hsrc : resolveSrc (normCode src) = .ok srcR)
    (hdest : resolveDest (normCode dest) = .ok destR)
    (hload : pyLoads (extract body) = some dataJ)
    (henc : pyIndexPath dataJ [0, 2] = .ok (.str encS))
    (hparsed : pyLoads encS = some parsed)
    (hbad : BadStruct parsed) :
    ∃ e, Translator.translate text dest src body = .error e ∧
      parseStage parsed srcR destR text = .error e ∧
      (e = .typeError ∨ e = .indexError ∨ e = .keyError) := by
  have hdec := translate_decomp text src dest body srcR destR encS dataJ parsed hsrc hdest hload
    henc hparsed
  have herr : ∃ e, parseStage parsed srcR destR text = .error e := by
    rcases hbad with ⟨e, h3⟩ | ⟨e, h5⟩ | ⟨parts, p, h5, hmem, e, hpe⟩
    · exact ⟨e, by simp [parseStage, h3]⟩
    · cases h3 : pyIndexPath parsed [1, 0, 0, 3] with
      | error e1 => exact ⟨e1, by simp [parseStage, h3]⟩
      | ok flag => exact ⟨e, by simp [parseStage, h3, h5]⟩
    · cases h3 : pyIndexPath parsed [1, 0, 0, 3] with
      | error e1 => exact ⟨e1, by simp [parseStage, h3]⟩
      | ok flag =>
        have hpart : toTranslatedPart p = .error e := by simp [toTranslatedPart, hpe]
        obtain ⟨e', hm⟩ := mapE_error_of_mem toTranslatedPart parts p hmem e hpart
        exact ⟨e', by simp [parseStage, h3, h5, pyIter, hm]⟩
  obtain ⟨e, he⟩ := herr
  exact ⟨e, by rw [hdec]; exact he, he, parseStage_error_kind _ _ _ _ _ he⟩

/-- The decoded outer envelope of `body10`. -/
def dataBody10 : JValue :=
  .arr [.arr [.str "wrb.fr", .str "MkEWBc", .str "[null,[[[null]]]]",
    .null, .null, .null, .str "generic"]]

/-- C10 (witness): the failure at the concrete body `body10`, whose decoded
body lacks the spacing-flag position. -/
theorem C10_witness :
    ∃ e, Translator.translate "hi" "en" "fr" body10 = .error e ∧
      parseStage parsedBody10 "fr" "en" "hi" = .error e ∧
      (e = .typeError ∨ e = .indexError ∨ e = .keyError) := by
  refine C10_critical_reads_fail "hi" "fr" "en" body10 "fr" "en" "[null,[[[null]]]]"
    dataBody10 parsedBody10 rfl rfl rfl rfl rfl ?_
  exact Or.inl ⟨.indexError, rfl⟩

/-! ## Claim C8 -/

/-- C8: with requested source `"auto"`, the parser first attempts
`parsed[2]`: a successfully read value (other than the literal `"auto"`)
is used; if the read raises — position absent or the container malformed —
the fallback `parsed[0][2]` is attempted the same way; if both reads raise
the source remains the literal `"auto"`, and a structurally valid body
still parses successfully (the fallback reads never fail the call). -/
theorem C8_auto_source_fallback (parsed : JValue) :
    (∀ v : JValue, pyIndexPath parsed [2] = .ok v → v ≠ JValue.str "auto" →
        resolveAutoSrc "auto" parsed = v)
  ∧ (∀ e : PyErr, pyIndexPath parsed [2] = .error e →
        resolveAutoSrc "auto" parsed = exceptD (pyIndexPath parsed [0, 2]) (JValue.str "auto"))
  ∧ (∀ e e' : PyErr, pyIndexPath parsed [2] = .error e → pyIndexPath parsed [0, 2] = .error e' →
        resolveAutoSrc "auto" parsed = JValue.str "auto")
  ∧ (∀ src : String, src ≠ "auto" → resolveAutoSrc src parsed = JValue.str src)
  ∧ (∀ (dest origin : String) (b : Bool) (parts : List JValue) (e e' : PyErr),
        pyIndexPath parsed [2] = .error e → pyIndexPath parsed [0, 2] = .error e' →
        pyIndexPath parsed [1, 0, 0, 3] = .ok (.bool b) →
        pyIndexPath parsed [1, 0, 0, 5] = .ok (.arr parts) →
        (∀ p ∈ parts, ∃ s rest, p = JValue.arr (.str s :: rest)) →
        ∃ r, parseStage parsed "auto" dest origin = .ok r ∧ r.src = JValue.str "auto") := by
  have hAuto : isAutoStr (JValue.str "auto") = true := by simp [isAutoStr]
  refine ⟨?_, ?_, ?_, ?_, ?_⟩
  · intro v hv hne
    have hvf : isAutoStr v = false := by
      cases v <;> simp_all [isAutoStr]
    simp [resolveAutoSrc, hAuto, hv, exceptD, hvf]
  · intro e he
    simp [resolveAutoSrc, hAuto, he, exceptD]
  · intro e e' he he'
    simp [resolveAutoSrc, hAuto, he, he', exceptD]
  · intro src hne
    have hf : isAutoStr (JValue.str src) = false := by simp [isAutoStr, hne]
    simp [resolveAutoSrc, hf]
  · intro dest origin b parts e e' he he' h3 h5 hp
    obtain ⟨r, ss, hok, -, -, hsrc, -, -, -⟩ :=
      parseStage_ok_of_valid parsed "auto" dest origin b parts h3 h5 hp
    refine ⟨r, hok, ?_⟩
    rw [hsrc]
    simp [resolveAutoSrc, hAuto, he, he', exceptD]

/-- A decoded body with neither detected-language position present but a
valid translation structure. -/
def parsedW8 : JValue :=
  .arr [.null, .arr [.arr [.arr [.null, .null, .null, .bool false, .null, .arr []]]]]

/-- C8 (witness): both detected-language reads raise on `parsedW8`, the
source stays `"auto"`, and the parse succeeds. -/
theorem C8_witness :
    pyIndexPath parsedW8 [2] = .error .indexError ∧
    pyIndexPath parsedW8 [0, 2] = .error .typeError ∧
    resolveAutoSrc "auto" parsedW8 = JValue.str "auto" ∧
    ∃ r, parseStage parsedW8 "auto" "en" "x" = .ok r ∧ r.src = JValue.str "auto" := by
  refine ⟨rfl, rfl, ?_, ?_⟩
  · exact (C8_auto_source_fallback parsedW8).2.2.1 .indexError .typeError rfl rfl
  · exact (C8_auto_source_fallback parsedW8).2.2.2.2 "en" "x" false [] .indexError .typeError
      rfl rfl rfl rfl (fun p hp => absurd hp (List.not_mem_nil p))

/-! ## Claim C9 -/

/-- C9: `detect` performs exactly one translation to English with source
`"auto"` on the same body and repackages its source and always-`null`
confidence: on success the detected language is the translation's source,
on failure the same exception propagates. -/
theorem C9_detect_delegates (text body : String) :
    (∀ r : Translated, Translator.translate text "en" "auto" body = .ok r →
        Translator.detect text body = .ok { lang := r.src, confidence := JValue.null })
  ∧ (∀ e : PyErr, Translator.translate text "en" "auto" body = .error e →
        Translator.detect text body = .error e) := by
  constructor
  · intro r h
    have hc := translate_ok_confidence text "en" "auto" body r h
    simp [Translator.detect, h, hc]
  · intro e h
    simp [Translator.detect, h]

/-- C9 (witness): on `happyLine`, `detect` returns the source `"es"` that
`translate(text, source="auto", destination="en")` resolves, confidence
`null`. -/
theorem C9_witness :
    Translator.detect "hola" happyLine =
      .ok { lang := JValue.str "es", confidence := JValue.null } := by
  have h : Translator.translate "hola" "en" "auto" happyLine = .ok happyResult := rfl
  exact (C9_detect_delegates "hola" happyLine).1 happyResult h

/-! ## Claim C4 -/

/-- C4: resolution lowercases and truncates at the first underscore
(`normCode`); a canonical code is used unchanged; `"auto"` bypasses
resolution for the source only (as a destination it fails); otherwise the
special-case table is consulted before the alias table, first match wins;
a code in none of the three tables makes `translate` fail with the invalid
source-language error for every response body — before any network
activity. -/
theorem C4_language_resolution (s t d body : String) :
    (resolveSrc "auto" = .ok "auto")
  ∧ (normCode s ∈ LANGUAGES →
      resolveSrc (normCode s) = .ok (normCode s) ∧ resolveDest (normCode s) = .ok (normCode s))
  ∧ (normCode s ∉ LANGUAGES → normCode s ≠ "auto" →
      resolveSrc (normCode s) =
        (match List.lookup (normCode s) SPECIAL_CASES with
         | some v => .ok v
         | none =>
           match List.lookup (normCode s) LANGCODES with
           | some v => .ok v
           | none => .error .invalidSrcLang))
  ∧ (normCode s ∉ LANGUAGES → normCode s ≠ "auto" →
      List.lookup (normCode s) SPECIAL_CASES = none →
      List.lookup (normCode s) LANGCODES = none →
      Translator.translate t d s body = .error .invalidSrcLang)
  ∧ (resolveDest "auto" = .error .invalidDestLang) := by
  refine ⟨rfl, ?_, ?_, ?_, rfl⟩
  · intro h
    constructor
    · simp [resolveSrc, h]
    · simp [resolveDest, h]
  · intro hnot hne
    simp [resolveSrc, hnot, hne]
  · intro hnot hne hsc hlc
    apply translate_src_error
    simp [resolveSrc, hnot, hne, hsc, hlc]

/-- C4 (witness): `"zz_XX"` normalizes to `"zz"`, which is in none of the
three tables, so the call fails before any use of the body. -/
theorem C4_witness : Translator.translate "hi" "en" "zz_XX" "" = .error .invalidSrcLang :=
  (C4_language_resolution "zz_XX" "hi" "en" "").2.2.2.1 (by decide) (by decide) rfl rfl

/-! ## Claim C5 -/

/-- C5 (counterexample): `"_EN"` lowercases to `"_en"` and truncation at
the first underscore keeps the part before it — the empty string, not
`"en"`; the empty string is in no table, so the call fails with the
invalid destination-language error instead of proceeding. -/
theorem C5_counterexample :
    normCode "_EN" = "" ∧
    Translator.translate "Hola" "_EN" "auto" "" = .error .invalidDestLang :=
  ⟨rfl, rfl⟩

/-- C5 (amended): `translate("Hola", destination="_EN")` fails with the
invalid destination-language error for every response body: the
destination normalizes to the empty string (the prefix before the first
underscore), which no table resolves. -/
theorem C5_underscore_destination_fails (body : String) :
    Translator.translate "Hola" "_EN" "auto" body = .error .invalidDestLang :=
  translate_dest_error "Hola" "_EN" "auto" body "auto" .invalidDestLang rfl rfl

/-- C5 (witness): the amended statement at a concrete body. -/
theorem C5_witness :
    Translator.translate "Hola" "_EN" "auto" happyLine = .error .invalidDestLang :=
  C5_underscore_destination_fails happyLine

/-! ## Claim C7: encoding lemmas -/

/-- Hex-digit emission and reading are inverse below 16. -/
theorem hexVal_hexDigitChar (d : Nat) (hd : d < 16) : hexVal (hexDigitChar d) = some d := by
  interval_cases d <;> decide

/-- Four-hex-digit emission and reading are inverse below `0x10000`. -/
theorem hex4Val_hex4 (n : Nat) (hn : n < 65536) :
    hex4Val (hexDigitChar (n / 4096 % 16)) (hexDigitChar (n / 256 % 16))
      (hexDigitChar (n / 16 % 16)) (hexDigitChar (n % 16)) = some n := by
  have h1 := hexVal_hexDigitChar (n / 4096 % 16) (Nat.mod_lt _ (by norm_num))
  have h2 := hexVal_hexDigitChar (n / 256 % 16) (Nat.mod_lt _ (by norm_num))
  have h3 := hexVal_hexDigitChar (n / 16 % 16) (Nat.mod_lt _ (by norm_num))
  have h4 := hexVal_hexDigitChar (n % 16) (Nat.mod_lt _ (by norm_num))
  simp [hex4Val, h1, h2, h3, h4]
  omega

/-- Every character's code stays below `0x110000` and avoids the surrogate
range. -/
theorem char_toNat_valid (c : Char) :
    c.toNat < 1114112 ∧ ¬ (55296 ≤ c.toNat ∧ c.toNat < 57344) := by
  have h := c.valid
  simp only [UInt32.isValidChar, Nat.isValidChar] at h
  have : c.toNat = c.val.toNat := rfl
  rcases h with h | h <;> omega

/-! ## Claim C7: escaping round-trip -/

theorem escapeList_cons (c : Char) (cs : List Char) :
    escapeList (c :: cs) = escapeChar c ++ escapeList cs := rfl

/-- Unfolding the scanner at a backslash. -/
theorem pjsb_backslash (fuel : Nat) (rest : List Char) :
    parseJStringBody (fuel + 1) ('\\' :: rest) =
      match escUnit rest with
      | none => none
      | some (ch, rest2) => (parseJStringBody fuel rest2).map fun p => (ch :: p.1, p.2) := by
  simp [parseJStringBody]

/-- A non-surrogate `\uXXXX` escape decodes to its code point. -/
theorem escUnit_u_val (a b d1 d2 : Char) (rest : List Char) (n : Nat)
    (h : hex4Val a b d1 d2 = some n) (hs1 : ¬ (55296 ≤ n ∧ n < 56320))
    (hs2 : ¬ (56320 ≤ n ∧ n < 57344)) :
    escUnit ('u' :: a :: b :: d1 :: d2 :: rest) = some (Char.ofNat n, rest) := by
  simp [escUnit, h, hs1, hs2]

/-- A surrogate pair decodes to its combined code point. -/
theorem escUnit_u_pair (a b d1 d2 a2 b2 c2 e2 : Char) (rest : List Char) (n m : Nat)
    (hn : hex4Val a b d1 d2 = some n) (hm : hex4Val a2 b2 c2 e2 = some m)
    (hsn : 55296 ≤ n ∧ n < 56320) (hsm : 56320 ≤ m ∧ m < 57344) :
    escUnit ('u' :: a :: b :: d1 :: d2 :: '\\' :: 'u' :: a2 :: b2 :: c2 :: e2 :: rest) =
      some (Char.ofNat (65536 + (n - 55296) * 1024 + (m - 56320)), rest) := by
  simp [escUnit, hn, hm, hsn, hsm]

/-- Decoding one emitted escape (or plain character) consumes exactly the
encoded character and continues. -/
theorem parse_escapeChar (fuel : Nat) (c : Char) (tail : List Char) :
    parseJStringBody (fuel + 1) (escapeChar c ++ tail) =
      (parseJStringBody fuel tail).map fun p => (c :: p.1, p.2) := by
  by_cases h1 : c = '\\'
  · subst h1; simp [escapeChar, parseJStringBody, escUnit, shortEsc]
  by_cases h2 : c = '"'
  · subst h2; simp [escapeChar, parseJStringBody, escUnit, shortEsc]
  by_cases h3 : c = Char.ofNat 8
  · subst h3; simp [escapeChar, parseJStringBody, escUnit, shortEsc]
  by_cases h4 : c = Char.ofNat 12
  · subst h4; simp [escapeChar, parseJStringBody, escUnit, shortEsc]
  by_cases h5 : c = '\n'
  · subst h5; simp [escapeChar, parseJStringBody, escUnit, shortEsc]
  by_cases h6 : c = Char.ofNat 13
  · subst h6; simp [escapeChar, parseJStringBody, escUnit, shortEsc]
  by_cases h7 : c = '\t'
  · subst h7; simp [escapeChar, parseJStringBody, escUnit, shortEsc]
  by_cases h8 : c.toNat < 32
  · -- other control characters, emitted as \uXXXX
    have hesc : escapeChar c = '\\' :: 'u' :: hex4 c.toNat := by
      unfold escapeChar
      rw [if_neg h1, if_neg h2, if_neg h3, if_neg h4, if_neg h5, if_neg h6, if_neg h7,
        if_pos h8]
    have hval := hex4Val_hex4 c.toNat (by omega)
    have hs1 : ¬ (55296 ≤ c.toNat ∧ c.toNat < 56320) := by omega
    have hs2 : ¬ (56320 ≤ c.toNat ∧ c.toNat < 57344) := by omega
    rw [hesc]
    simp only [hex4, List.cons_append]
    rw [pjsb_backslash, escUnit_u_val _ _ _ _ _ _ hval hs1 hs2, Char.ofNat_toNat]
    simp
  by_cases h9 : c.toNat < 127
  · -- printable ASCII, emitted as itself
    simp [escapeChar, h1, h2, h3, h4, h5, h6, h7, h8, h9, parseJStringBody]
  by_cases h10 : c.toNat < 65536
  · -- non-ASCII below 0x10000, emitted as \uXXXX
    have hesc : escapeChar c = '\\' :: 'u' :: hex4 c.toNat := by
      unfold escapeChar
      rw [if_neg h1, if_neg h2, if_neg h3, if_neg h4, if_neg h5, if_neg h6, if_neg h7,
        if_neg h8, if_neg h9, if_pos h10]
    have hval := hex4Val_hex4 c.toNat h10
    have hvalid := (char_toNat_valid c).2
    have hs1 : ¬ (55296 ≤ c.toNat ∧ c.toNat < 56320) := by omega
    have hs2 : ¬ (56320 ≤ c.toNat ∧ c.toNat < 57344) := by omega
    rw [hesc]
    simp only [hex4, List.cons_append]
    rw [pjsb_backslash, escUnit_u_val _ _ _ _ _ _ hval hs1 hs2, Char.ofNat_toNat]
    simp
  · -- astral characters, emitted as a surrogate pair
    have hv := (char_toNat_valid c).1
    have hesc : escapeChar c =
        ('\\' :: 'u' :: hex4 (55296 + (c.toNat - 65536) / 1024)) ++
        ('\\' :: 'u' :: hex4 (56320 + (c.toNat - 65536) % 1024)) := by
      unfold escapeChar
      rw [if_neg h1, if_neg h2, if_neg h3, if_neg h4, if_neg h5, if_neg h6, if_neg h7,
        if_neg h8, if_neg h9, if_neg h10]
    have hhi : 55296 + (c.toNat - 65536) / 1024 < 65536 := by omega
    have hlo : 56320 + (c.toNat - 65536) % 1024 < 65536 := by omega
    have hval1 := hex4Val_hex4 (55296 + (c.toNat - 65536) / 1024) hhi
    have hval2 := hex4Val_hex4 (56320 + (c.toNat - 65536) % 1024) hlo
    have hc1 : 55296 ≤ 55296 + (c.toNat - 65536) / 1024 ∧
        55296 + (c.toNat - 65536) / 1024 < 56320 := by omega
    have hc2 : 56320 ≤ 56320 + (c.toNat - 65536) % 1024 ∧
        56320 + (c.toNat - 65536) % 1024 < 57344 := by omega
    have hchar : Char.ofNat (65536 + (55296 + (c.toNat - 65536) / 1024 - 55296) * 1024 +
        (56320 + (c.toNat - 65536) % 1024 - 56320)) = c := by
      rw [show 65536 + (55296 + (c.toNat - 65536) / 1024 - 55296) * 1024 +
        (56320 + (c.toNat - 65536) % 1024 - 56320) = c.toNat from by omega]
      exact Char.ofNat_toNat c
    rw [hesc]
    simp only [hex4, List.cons_append, List.append_assoc, List.nil_append]
    rw [pjsb_backslash, escUnit_u_pair _ _ _ _ _ _ _ _ _ _ _ hval1 hval2 hc1 hc2, hchar]

/-- Every emitted escape is at least one character long. -/
theorem escapeChar_length_pos (c : Char) : 1 ≤ (escapeChar c).length := by
  by_cases h1 : c = '\\'
  · simp [escapeChar, h1]
  by_cases h2 : c = '"'
  · simp [escapeChar, h1, h2]
  by_cases h3 : c = Char.ofNat 8
  · simp [escapeChar, h1, h2, h3]
  by_cases h4 : c = Char.ofNat 12
  · simp [escapeChar, h1, h2, h3, h4]
  by_cases h5 : c = '\n'
  · simp [escapeChar, h1, h2, h3, h4, h5]
  by_cases h6 : c = Char.ofNat 13
  · simp [escapeChar, h1, h2, h3, h4, h5, h6]
  by_cases h7 : c = '\t'
  · simp [escapeChar, h1, h2, h3, h4, h5, h6, h7]
  by_cases h8 : c.toNat < 32
  · simp [escapeChar, h1, h2, h3, h4, h5, h6, h7, h8, hex4]
  by_cases h9 : c.toNat < 127
  · simp [escapeChar, h1, h2, h3, h4, h5, h6, h7, h8, h9]
  by_cases h10 : c.toNat < 65536
  · simp [escapeChar, h1, h2, h3, h4, h5, h6, h7, h8, h9, h10, hex4]
  · simp [escapeChar, h1, h2, h3, h4, h5, h6, h7, h8, h9, h10, hex4]

/-- Escaping never shortens a string. -/
theorem escapeList_length (s : List Char) : s.length ≤ (escapeList s).length := by
  induction s with
  | nil => simp [escapeList]
  | cons c cs ih =>
    rw [escapeList_cons]
    have h1 := escapeChar_length_pos c
    simp only [List.length_append, List.length_cons]
    omega

/-- The emitted string-literal body decodes back to exactly the original
characters, leaving the input after the closing quote untouched. -/
theorem parse_escapeList (s : List Char) : ∀ (fuel : Nat) (rest : List Char), s.length < fuel →
    parseJStringBody fuel (escapeList s ++ '"' :: rest) = some (s, rest) := by
  induction s with
  | nil =>
    intro fuel rest h
    cases fuel with
    | zero => omega
    | succ f => simp [escapeList, parseJStringBody]
  | cons c cs ih =>
    intro fuel rest h
    cases fuel with
    | zero => omega
    | succ f =>
      rw [escapeList_cons, List.append_assoc, parse_escapeChar,
        ih f rest (by simp only [List.length_cons] at h; omega)]
      rfl

/-- Unfolding the value scanner at an opening quote. -/
theorem parseVal_quote (fuel : Nat) (r : List Char) :
    parseVal (fuel + 1) ('"' :: r) =
      (parseJStringBody (r.length + 1) r).map fun q => (JValue.str (String.mk q.1), q.2) := rfl

/-- The emitted string literal, read by the value scanner, yields back
exactly the original string. -/
theorem parseVal_dumpStr (fuel : Nat) (s : String) (rest : List Char) :
    parseVal (fuel + 1) ((dumpStr s).data ++ rest) = some (JValue.str s, rest) := by
  have hdata : (dumpStr s).data = '"' :: (escapeList s.data ++ ['"']) := rfl
  rw [hdata]
  simp only [List.cons_append, List.append_assoc, List.singleton_append, List.nil_append]
  have hlen : s.data.length < (escapeList s.data ++ '"' :: rest).length + 1 := by
    have := escapeList_length s.data
    simp only [List.length_append, List.length_cons]
    omega
  rw [parseVal_quote, parse_escapeList s.data _ _ hlen]
  rfl

theorem str_ext (a b : String) (h : a.data = b.data) : a = b := by
  cases a; cases b; exact congrArg String.mk h

theorem str_data_append (a b : String) : (a ++ b).data = a.data ++ b.data := by
  cases a; cases b; rfl

/-- The inner array serializes to the spec's inner template. -/
theorem pyDumps_inner (text src dest : String) :
    pyDumps (.arr [.arr [.str text, .str src, .str dest, .bool true], .arr [.null]]) =
      "[[" ++ dumpStr text ++ "," ++ dumpStr src ++ "," ++ dumpStr dest ++ ",true],[null]]" := by
  have l1 : ("[[" : String).data = ['[', '['] := rfl
  have l2 : ("," : String).data = [','] := rfl
  have l3 : (",true],[null]]" : String).data =
    [',', 't', 'r', 'u', 'e', ']', ',', '[', 'n', 'u', 'l', 'l', ']', ']'] := rfl
  have l4 : ("[" : String).data = ['['] := rfl
  have l5 : ("]" : String).data = [']'] := rfl
  have l6 : ("true" : String).data = ['t', 'r', 'u', 'e'] := rfl
  have l7 : ("null" : String).data = ['n', 'u', 'l', 'l'] := rfl
  have l8 : ("" : String).data = [] := rfl
  apply str_ext
  simp [pyDumps, pyDumpsRest, str_data_append, l1, l2, l3, l4, l5, l6, l7, l8]

/-- The full request serializes to the spec's outer template. -/
theorem build_rpc_request_spec (text src dest : String) :
    build_rpc_request text dest src = specRequest text src dest := by
  unfold build_rpc_request specRequest
  rw [pyDumps_inner]
  have l1 : ("[[[" : String).data = ['[', '[', '['] := rfl
  have l2 : ("," : String).data = [','] := rfl
  have l3 : (",null,\"generic\"]]]" : String).data =
    [',', 'n', 'u', 'l', 'l', ',', '"', 'g', 'e', 'n', 'e', 'r', 'i', 'c', '"', ']', ']', ']'] :=
    rfl
  have l4 : ("[" : String).data = ['['] := rfl
  have l5 : ("]" : String).data = [']'] := rfl
  have l6 : ("null" : String).data = ['n', 'u', 'l', 'l'] := rfl
  have l7 : ("" : String).data = [] := rfl
  have l8 : (dumpStr "generic").data = ['"', 'g', 'e', 'n', 'e', 'r', 'i', 'c', '"'] := rfl
  apply str_ext
  simp [pyDumps, pyDumpsRest, str_data_append, l1, l2, l3, l4, l5, l6, l7, l8]

/-! ## Claim C7 -/

/-- C7: the encoded request is exactly the JSON string
`[[[RPC_ID, inner, null, "generic"]]]` where `inner` is itself the JSON
encoding, as a single string literal, of `[[text, source, destination,
true], [null]]`, with the spec's field order and the literals `true` and
`null` reproduced exactly (the double-encoding of the spec's template
`specRequest`); and the emitted string literals decode back to exactly the
original text — quotes, control characters and all — so escaping is
correct for arbitrary text.  Encoding is a pure function. -/
theorem C7_request_encoding (text src dest : String) :
    build_rpc_request text dest src = specRequest text src dest ∧
    ∀ (fuel : Nat) (s : String) (rest : List Char),
      parseVal (fuel + 1) ((dumpStr s).data ++ rest) = some (JValue.str s, rest) :=
  ⟨build_rpc_request_spec text src dest, fun fuel s rest => parseVal_dumpStr fuel s rest⟩
